import Mathlib

/-!
Verification of the `language-model-playground` repository's specification
against its source.  The repository is a thin language-model toolkit: model
base classes (`lmp/model/_base.py`), a model registry (`lmp/model/__init__.py`)
and tests.  Numeric code is embedded over `ℚ` (exact arithmetic standing for
the float computations) with the logarithm abstracted as a function parameter
`lg : ℚ → ℚ`, since every property under verification is uniform in the
choice of logarithm.  Token ids are `Nat`.
-/

namespace LMP

/-- Begin-of-sentence token id, from `lmp.tknzr._base` (imported by the tests
under src; the module itself is absent, the concrete values only matter up to
distinctness). -/
def BOS_TKID : Nat := 0

/-- End-of-sentence token id, from `lmp.tknzr._base`. -/
def EOS_TKID : Nat := 1

/-- Padding token id, from `lmp.tknzr._base`. -/
def PAD_TKID : Nat := 2

/-- Unknown token id, from `lmp.tknzr._base`. -/
def UNK_TKID : Nat := 3

/-- Modelled from the spec: `lmp.util.metric.cross_entropy_loss` is not under
src (only its test is).  Per-position contribution of one sequence position:
the spec's "negative log-likelihood of the correct next token under the
model's predicted distribution, masked at padding positions" gathers, at each
position, the predicted probability of the target token id and takes its log,
while a padding target contributes nothing to the sum and nothing to the
count.  The pair returned is (masked sum of log-probabilities, masked count).
`lg` abstracts the logarithm. -/
def seqCESum (lg : ℚ → ℚ) : List (Nat × List ℚ) → ℚ × ℚ
  | [] => (0, 0)
  | (t, row) :: rest =>
    let (s, c) := seqCESum lg rest
    if t = PAD_TKID then (s, c) else (lg (row.getD t 0) + s, 1 + c)

/-- Modelled from the spec: cross entropy loss of a single sequence; the
masked sum of log-probabilities divided by the masked count, negated. -/
def seqCE (lg : ℚ → ℚ) (tkids : List Nat) (tkids_pd : List (List ℚ)) : ℚ :=
  match seqCESum lg (tkids.zip tkids_pd) with
  | (s, c) => -(s / c)

/-- Modelled from the spec: `lmp.util.metric.cross_entropy_loss`.
`batch_tkids` has shape (batch_size, seq_len); `batch_tkids_pd` has shape
(batch_size, seq_len, vocab_size).  Returns one masked mean negative
log-likelihood per sequence, shape (batch_size). -/
def cross_entropy_loss (lg : ℚ → ℚ) (batch_tkids : List (List Nat))
    (batch_tkids_pd : List (List (List ℚ))) : List ℚ :=
  (batch_tkids.zip batch_tkids_pd).map (fun p => seqCE lg p.1 p.2)

/-- Modelled from the spec: the concrete recurrent models (`lmp/model/_rnn.py`
and friends) are not under src; `lmp/model/_base.py` declares `forward` and
`pred` abstract.  The spec describes the models as "forward recurrence,
loss masking, hidden-state threading across time steps": a model over a
hidden-state type `σ` carries an initial hidden state and a step function
which, from the carried hidden state and the current input token id, produces
the next-token-id probability distribution (one entry per vocabulary id) and
the updated hidden state. -/
structure RecurrentModel (σ : Type) where
  vocab_size : Nat
  init_state : σ
  step : σ → Nat → List ℚ × σ
  step_len : ∀ s t, (step s t).1.length = vocab_size

/-- Modelled from the spec: `BaseModel.pred` (`lmp/model/_base.py` lines
62-89, abstract).  `batch_cur_tkids` has shape (batch_size); the previous
hidden states are one per batch element, `none` standing for Python's `None`
which selects the initial hidden state.  Returns the batch of next-token-id
probability distributions, shape (batch_size, vocab_size), paired with the
batch of current hidden states. -/
def pred {σ : Type} (m : RecurrentModel σ) (batch_cur_tkids : List Nat)
    (batch_prev_states : Option (List σ)) : List (List ℚ) × List σ :=
  let states := batch_prev_states.getD
    (List.replicate batch_cur_tkids.length m.init_state)
  let outs := (batch_cur_tkids.zip states).map (fun p => m.step p.2 p.1)
  (outs.map Prod.fst, outs.map Prod.snd)

/-- Modelled from the spec: teacher-forced unrolling of the recurrence over
one sequence.  At each time step the input is the ground-truth current token
(never a model prediction); the hidden state produced at one step is the one
consumed at the next.  Returns the probability distribution emitted at each
time step. -/
def unroll {σ : Type} (m : RecurrentModel σ) : σ → List Nat → List (List ℚ)
  | _, [] => []
  | s, t :: ts =>
    match m.step s t with
    | (d, s2) => d :: unroll m s2 ts

/-- Modelled from the spec: per-sequence training-loss accumulator of
`BaseModel.forward`.  Threads the hidden state along the ground-truth input
tokens while accumulating the (masked sum of log-probabilities of the
ground-truth next tokens, masked count); a padding target contributes to
neither. -/
def seqForwardAcc {σ : Type} (lg : ℚ → ℚ) (m : RecurrentModel σ) :
    σ → List Nat → List Nat → ℚ × ℚ
  | _, [], _ => (0, 0)
  | _, _ :: _, [] => (0, 0)
  | s, c :: cs, n :: ns =>
    match m.step s c with
    | (d, s2) =>
      match seqForwardAcc lg m s2 cs ns with
      | (su, cnt) =>
        if n = PAD_TKID then (su, cnt) else (lg (d.getD n 0) + su, 1 + cnt)

/-- Modelled from the spec: `BaseModel.forward` (`lmp/model/_base.py` lines
35-60, abstract).  Computes the mini-batch training loss under teacher
forcing: `batch_cur_tkids` and `batch_next_tkids` both hold ground-truth
token ids of shape (batch_size, seq_len); each sequence is unrolled from the
initial hidden state on its ground-truth inputs, the per-sequence masked mean
negative log-likelihood of the ground-truth next tokens is taken, and the
batch's losses are averaged into a single scalar, returned with shape (1). -/
def forward {σ : Type} (lg : ℚ → ℚ) (m : RecurrentModel σ)
    (batch_cur_tkids batch_next_tkids : List (List Nat)) : List ℚ :=
  let losses := (batch_cur_tkids.zip batch_next_tkids).map (fun p =>
    match seqForwardAcc lg m m.init_state p.1 p.2 with
    | (su, cnt) => -(su / cnt))
  [losses.sum / losses.length]

/-- Modelled from the spec: the tokenizer (`lmp.tknzr`) is not under src; the
spec says it "maps raw text to integer token ids and back" and the tests
under src import `UNK_TKID` from `lmp.tknzr._base`, so encoding substitutes
the unknown-token id for out-of-vocabulary tokens.  A character-level
vocabulary pairs each known character with its token id.  Encoding one
character looks it up, falling back to `UNK_TKID`. -/
def tok2id (vocab : List (Char × Nat)) (c : Char) : Nat :=
  match vocab.find? (fun p => p.1 == c) with
  | some p => p.2
  | none => UNK_TKID

/-- Modelled from the spec: decoding one token id performs the reverse
vocabulary lookup; an id with no vocabulary entry decodes to the unknown
token's display text. -/
def id2seg (vocab : List (Char × Nat)) (i : Nat) : List Char :=
  match vocab.find? (fun p => p.2 == i) with
  | some p => [p.1]
  | none => "[unk]".data

/-- Modelled from the spec: encode raw text into the sequence of its
characters' token ids. -/
def enc (vocab : List (Char × Nat)) (txt : String) : List Nat :=
  txt.data.map (tok2id vocab)

/-- Modelled from the spec: decode a sequence of token ids back to text. -/
def dec (vocab : List (Char × Nat)) (tkids : List Nat) : String :=
  String.mk (tkids.flatMap (id2seg vocab))

/-- The model classes re-imported by `lmp/model/__init__.py`.  The class
bodies are not under src; for the registry claims only their identity and
`model_name` matter. -/
inductive ModelClass where
  | GRUModel
  | LSTMModel
  | RNNModel
  | ResGRUModel
  | ResRNNModel
  | ResLSTMModel
deriving DecidableEq, Repr

/-- Modelled from the spec: each model class's CLI display name
(`model_name` class attribute).  The module docstring under src fixes
`RNNModel.model_name = "RNN"`; the remaining display names follow the
architecture names the spec lists (GRU, LSTM and the residual variants),
pairwise distinct. -/
def model_name : ModelClass → String
  | .GRUModel => "GRU"
  | .LSTMModel => "LSTM"
  | .RNNModel => "RNN"
  | .ResGRUModel => "res-GRU"
  | .ResRNNModel => "res-RNN"
  | .ResLSTMModel => "res-LSTM"

/-- `ALL_MODELS` from `lmp/model/__init__.py`, in source order. -/
def ALL_MODELS : List ModelClass :=
  [.GRUModel, .LSTMModel, .RNNModel, .ResGRUModel, .ResRNNModel, .ResLSTMModel]

/-- Python dict insertion: overwrite the value in place if the key is
present, otherwise append the binding (insertion order preserved). -/
def dictInsert {α : Type} (d : List (String × α)) (k : String) (v : α) :
    List (String × α) :=
  if d.any (fun p => p.1 == k) then
    d.map (fun p => if p.1 == k then (k, v) else p)
  else d ++ [(k, v)]

/-- Python dict lookup (`d[k]`), as an option. -/
def dictLookup {α : Type} (d : List (String × α)) (k : String) : Option α :=
  (d.find? (fun p => p.1 == k)).map Prod.snd

/-- `MODEL_OPTS` from `lmp/model/__init__.py`: the dict comprehension
mapping each model's `model_name` to the model class, over `ALL_MODELS` in
order. -/
def MODEL_OPTS : List (String × ModelClass) :=
  ALL_MODELS.foldl (fun d m => dictInsert d (model_name m) m) []

/-- Declared type of a CLI argument in `BaseModel.train_parser`. -/
inductive ArgTy where
  | int
  | float
  | str
deriving DecidableEq, Repr

/-- A parsed CLI argument value. -/
inductive ArgVal where
  | vInt : Int → ArgVal
  | vFloat : ℚ → ArgVal
  | vStr : String → ArgVal
deriving DecidableEq, Repr

/-- One `add_argument` registration: destination name, whether required,
declared type, optional choices restriction, optional default value. -/
structure ArgSpec where
  name : String
  required : Bool
  ty : ArgTy
  choices : Option (List String)
  dflt : Option ArgVal
deriving DecidableEq, Repr

/-- Digit-string value; `none` on a non-digit character (empty means 0,
emptiness is checked by callers). -/
def digitsValCore (ds : List Char) : Option Nat :=
  ds.foldl
    (fun acc c =>
      match acc with
      | none => none
      | some n => if c.isDigit then some (n * 10 + (c.toNat - 48)) else none)
    (some 0)

/-- Leading sign of a numeric literal: (is-negative, remaining characters). -/
def splitSign : List Char → Bool × List Char
  | [] => (false, [])
  | c :: rest =>
    if c == '-' then (true, rest)
    else if c == '+' then (false, rest)
    else (false, c :: rest)

/-- Split a character list on a separator character (the groups between the
separators, in order). -/
def splitOnChar (sep : Char) : List Char → List (List Char)
  | [] => [[]]
  | x :: xs =>
    match splitOnChar sep xs with
    | [] => [[]]
    | g :: gs => if x == sep then [] :: g :: gs else (x :: g) :: gs

/-- Python's `int(...)` conversion on a character list: optional sign
followed by a non-empty digit string. -/
def parseIntChars (l : List Char) : Option Int :=
  match splitSign l with
  | (neg, ds) =>
    if ds.isEmpty then none
    else (digitsValCore ds).map (fun n => if neg then -(n : Int) else (n : Int))

/-- Python's `int(...)` conversion of a CLI string. -/
def parseInt (s : String) : Option Int :=
  parseIntChars s.data

/-- Python's `float(...)` conversion on the grammar of decimal literals
(sign, integer part, optional fractional part, optional exponent), into an
exact rational. -/
def parseFloat (s : String) : Option ℚ := do
  let p := splitSign s.data
  let parts := splitOnChar 'e' (p.2.map (fun c => if c == 'E' then 'e' else c))
  let me ← match parts with
    | [m] => some (m, (0 : Int))
    | [m, e] => (parseIntChars e).map (fun ev => (m, ev))
    | _ => none
  let mval ← match splitOnChar '.' me.1 with
    | [ip] =>
        if ip.isEmpty then none
        else (digitsValCore ip).map (fun n => (n : ℚ))
    | [ip, fp] =>
        if ip.isEmpty && fp.isEmpty then none
        else do
          let ipn ← digitsValCore ip
          let fpn ← digitsValCore fp
          pure ((ipn : ℚ) + (fpn : ℚ) / (10 : ℚ) ^ fp.length)
    | _ => none
  let v := mval * (10 : ℚ) ^ me.2
  pure (if p.1 then -v else v)

/-- Conversion of a raw CLI string by an argument's declared type (`int`,
`float` or `str` in `add_argument`). -/
def convert : ArgTy → String → Option ArgVal
  | .int, s => (parseInt s).map ArgVal.vInt
  | .float, s => (parseFloat s).map ArgVal.vFloat
  | .str, s => some (ArgVal.vStr s)

/-- Pair an argv token list into (option name, raw value) pairs: an option
token starts with the `--` prefix and consumes the following token as its
value. -/
def pairArgs : List String → Option (List (String × String))
  | [] => some []
  | k :: v :: rest =>
    match k.data with
    | c1 :: c2 :: kname =>
      if c1 == '-' && c2 == '-' then
        (pairArgs rest).map (fun l => (String.mk kname, v) :: l)
      else none
    | _ => none
  | _ :: [] => none

/-- Find the registered argument spec for an option name. -/
def lookupSpec (specs : List ArgSpec) (k : String) : Option ArgSpec :=
  specs.find? (fun sp => sp.name == k)

/-- Convert every supplied (name, raw value) pair: unknown option names,
failed type conversions and values outside a `choices` restriction are
errors. -/
def convertPairs (specs : List ArgSpec) :
    List (String × String) → Option (List (String × ArgVal))
  | [] => some []
  | (k, raw) :: rest =>
    match lookupSpec specs k with
    | none => none
    | some sp =>
      match convert sp.ty raw with
      | none => none
      | some v =>
        match (match sp.choices with
               | some cs => if cs.contains raw then some () else none
               | none => some ()) with
        | none => none
        | some _ =>
          match convertPairs specs rest with
          | none => none
          | some tail => some ((k, v) :: tail)

/-- Every `required=True` argument must have been supplied. -/
def requiredPresent (specs : List ArgSpec) (keys : List String) : Bool :=
  specs.all (fun sp => !sp.required || keys.contains sp.name)

/-- Defaults of the registered arguments that were not supplied. -/
def applyDefaults (specs : List ArgSpec) (keys : List String) :
    List (String × ArgVal) :=
  (specs.filter (fun sp => !(keys.contains sp.name))).filterMap
    (fun sp => sp.dflt.map (fun d => (sp.name, d)))

/-- `argparse.ArgumentParser.parse_args` over the registered argument specs:
pair the argv tokens, convert each supplied value, fail if a required
argument is missing, and fill in defaults for unsupplied optional
arguments. -/
def parse_args (specs : List ArgSpec) (argv : List String) :
    Option (List (String × ArgVal)) :=
  match pairArgs argv with
  | none => none
  | some pairs =>
    match convertPairs specs pairs with
    | none => none
    | some vals =>
      if requiredPresent specs (pairs.map Prod.fst) then
        some (vals ++ applyDefaults specs (pairs.map Prod.fst))
      else none

/-- Modelled from the spec: `lmp.dset.DSET_OPTS` is not under src; the
`train_parser` doctest uses the dataset name `wiki-text-2`, so the choices
of `--dset_name` contain it. -/
def DSET_CHOICES : List String := ["demo", "wiki-text-2"]

/-- The argument registrations of `BaseModel.train_parser`
(`lmp/model/_base.py` lines 91-268), in source order: fifteen required
arguments with their declared types, the `choices` restriction on
`--dset_name`, and the optional `--seed` with default 42. -/
def train_parser_args : List ArgSpec :=
  [⟨"batch_size", true, .int, none, none⟩,
   ⟨"beta1", true, .float, none, none⟩,
   ⟨"beta2", true, .float, none, none⟩,
   ⟨"ckpt_step", true, .int, none, none⟩,
   ⟨"dset_name", true, .str, some DSET_CHOICES, none⟩,
   ⟨"eps", true, .float, none, none⟩,
   ⟨"exp_name", true, .str, none, none⟩,
   ⟨"log_step", true, .int, none, none⟩,
   ⟨"lr", true, .float, none, none⟩,
   ⟨"max_norm", true, .float, none, none⟩,
   ⟨"max_seq_len", true, .int, none, none⟩,
   ⟨"n_epoch", true, .int, none, none⟩,
   ⟨"tknzr_exp_name", true, .str, none, none⟩,
   ⟨"ver", true, .str, none, none⟩,
   ⟨"wd", true, .float, none, none⟩,
   ⟨"seed", false, .int, none, some (ArgVal.vInt 42)⟩]

/-- The names of the required arguments of `BaseModel.train_parser`. -/
def requiredNames : List String :=
  (train_parser_args.filter (fun sp => sp.required)).map (fun sp => sp.name)

/-- A pair of probability-row lists agrees at every position whose target
token id is not `PAD_TKID` (positions beyond the targets are never read). -/
def rowsAgreeOffPad : List Nat → List (List ℚ) → List (List ℚ) → Bool
  | _, [], [] => true
  | [], _, _ => true
  | t :: ts, p :: ps, q :: qs =>
    (t == PAD_TKID || p == q) && rowsAgreeOffPad ts ps qs
  | _, _, _ => false

/-- Batchwise version of `rowsAgreeOffPad`. -/
def batchAgreeOffPad :
    List (List Nat) → List (List (List ℚ)) → List (List (List ℚ)) → Bool
  | _, [], [] => true
  | [], _, _ => true
  | t :: ts, p :: ps, q :: qs =>
    rowsAgreeOffPad t p q && batchAgreeOffPad ts ps qs
  | _, _, _ => false

/-- The masked accumulator equals the sum over the positions whose target is
not `PAD_TKID`, paired with the number of such positions. -/
theorem seqCESum_eq_filter (lg : ℚ → ℚ) (l : List (Nat × List ℚ)) :
    seqCESum lg l =
      (((l.filter (fun p => p.1 != PAD_TKID)).map
          (fun p => lg (p.2.getD p.1 0))).sum,
       (((l.filter (fun p => p.1 != PAD_TKID)).length : ℚ))) := by
  induction l with
  | nil => simp [seqCESum]
  | cons hd tl ih =>
    obtain ⟨t, row⟩ := hd
    by_cases h : t = PAD_TKID
    · simp [seqCESum, ih, h]
    · simp [seqCESum, ih, h, List.filter_cons]
      ring

/-- Claim C1: for target token ids of shape (batch_size, seq_len) and predicted
next-token probability distributions of shape (batch_size, seq_len,
vocab_size), `cross_entropy_loss` returns a tensor of shape (batch_size)
whose entry for each sequence is the negative of the mean log-probability
assigned to the correct next token over that sequence's positions, the
positions whose target is the padding token being excluded from both the sum
and the count. -/
theorem cross_entropy_loss_spec (lg : ℚ → ℚ) (batch_tkids : List (List Nat))
    (batch_tkids_pd : List (List (List ℚ)))
    (hlen : batch_tkids.length = batch_tkids_pd.length) :
    (cross_entropy_loss lg batch_tkids batch_tkids_pd).length =
      batch_tkids.length ∧
    cross_entropy_loss lg batch_tkids batch_tkids_pd =
      (batch_tkids.zip batch_tkids_pd).map (fun p =>
        -((((p.1.zip p.2).filter (fun q => q.1 != PAD_TKID)).map
            (fun q => lg (q.2.getD q.1 0))).sum /
          ((((p.1.zip p.2).filter (fun q => q.1 != PAD_TKID)).length : ℚ)))) := by
  constructor
  · simp [cross_entropy_loss, List.length_zip, hlen]
  · unfold cross_entropy_loss
    refine List.map_congr_left (fun p _ => ?h)
    show seqCE lg p.1 p.2 = _
    unfold seqCE
    rw [seqCESum_eq_filter]

/-- Witness for C1 at the cross-entropy test fixture's token ids (with the
probability at the padding positions and the test's NaN replaced by exact
rationals). -/
theorem cross_entropy_loss_spec_witness :
    ([[BOS_TKID, UNK_TKID, EOS_TKID, PAD_TKID, PAD_TKID],
      [BOS_TKID, UNK_TKID, UNK_TKID, UNK_TKID, EOS_TKID]] :
        List (List Nat)).length =
      ([[[(9:ℚ)/10, 0, 0, 0], [0, 0, 0, 8/10], [0, 7/10, 0, 0],
         [0, 0, 6/10, 0], [0, 0, 5/10, 0]],
        [[(4:ℚ)/10, 0, 0, 0], [0, 0, 0, 3/10], [0, 0, 0, 2/10],
         [0, 0, 0, 1/10], [0, 11/10, 0, 0]]] :
          List (List (List ℚ))).length ∧
    ((cross_entropy_loss id
        [[BOS_TKID, UNK_TKID, EOS_TKID, PAD_TKID, PAD_TKID],
         [BOS_TKID, UNK_TKID, UNK_TKID, UNK_TKID, EOS_TKID]]
        [[[(9:ℚ)/10, 0, 0, 0], [0, 0, 0, 8/10], [0, 7/10, 0, 0],
          [0, 0, 6/10, 0], [0, 0, 5/10, 0]],
         [[(4:ℚ)/10, 0, 0, 0], [0, 0, 0, 3/10], [0, 0, 0, 2/10],
          [0, 0, 0, 1/10], [0, 11/10, 0, 0]]]).length = 2 ∧
      cross_entropy_loss id
        [[BOS_TKID, UNK_TKID, EOS_TKID, PAD_TKID, PAD_TKID],
         [BOS_TKID, UNK_TKID, UNK_TKID, UNK_TKID, EOS_TKID]]
        [[[(9:ℚ)/10, 0, 0, 0], [0, 0, 0, 8/10], [0, 7/10, 0, 0],
          [0, 0, 6/10, 0], [0, 0, 5/10, 0]],
         [[(4:ℚ)/10, 0, 0, 0], [0, 0, 0, 3/10], [0, 0, 0, 2/10],
          [0, 0, 0, 1/10], [0, 11/10, 0, 0]]] =
        [-(((9:ℚ)/10 + 8/10 + 7/10) / 3),
         -(((4:ℚ)/10 + 3/10 + 2/10 + 1/10 + 11/10) / 5)]) := by
  refine ⟨by decide, ?h1, ?h2⟩
  · exact (cross_entropy_loss_spec id _ _ (by decide)).1
  · rw [(cross_entropy_loss_spec id _ _ (by decide)).2]
    simp +decide [List.zip, List.zipWith, List.filter, BOS_TKID, UNK_TKID, EOS_TKID, PAD_TKID]
    norm_num

/-- The masked accumulator of one sequence only reads the probability rows at
positions whose target is not the padding token. -/
theorem seqCESum_agree (lg : ℚ → ℚ) :
    ∀ (t : List Nat) (p q : List (List ℚ)),
      rowsAgreeOffPad t p q = true →
      seqCESum lg (t.zip p) = seqCESum lg (t.zip q)
  | [], p, q, _ => by simp [List.zip]
  | _ :: _, [], [], _ => rfl
  | t0 :: ts, p0 :: ps, q0 :: qs, h => by
    simp only [rowsAgreeOffPad, Bool.and_eq_true, Bool.or_eq_true, beq_iff_eq] at h
    obtain ⟨h1, h2⟩ := h
    have ih : seqCESum lg (List.zipWith Prod.mk ts ps) =
        seqCESum lg (List.zipWith Prod.mk ts qs) := seqCESum_agree lg ts ps qs h2
    rcases h1 with h1 | h1
    · simp [List.zip, seqCESum, ih, h1]
    · subst h1
      simp [List.zip, seqCESum, ih]
  | _ :: _, [], _ :: _, h => by simp [rowsAgreeOffPad] at h
  | _ :: _, _ :: _, [], h => by simp [rowsAgreeOffPad] at h

/-- Batchwise version of `seqCESum_agree`, at the level of
`cross_entropy_loss`. -/
theorem cross_entropy_loss_agree_aux (lg : ℚ → ℚ) :
    ∀ (batch_tkids : List (List Nat)) (pd1 pd2 : List (List (List ℚ))),
      batchAgreeOffPad batch_tkids pd1 pd2 = true →
      cross_entropy_loss lg batch_tkids pd1 = cross_entropy_loss lg batch_tkids pd2
  | _, [], [], _ => rfl
  | [], _, _, _ => by simp [cross_entropy_loss, List.zip]
  | t0 :: ts, p0 :: ps, q0 :: qs, h => by
    simp only [batchAgreeOffPad, Bool.and_eq_true] at h
    obtain ⟨h1, h2⟩ := h
    have ih := cross_entropy_loss_agree_aux lg ts ps qs h2
    have hseq : seqCE lg t0 p0 = seqCE lg t0 q0 := by
      unfold seqCE
      rw [seqCESum_agree lg t0 p0 q0 h1]
    unfold cross_entropy_loss
    simp only [List.zip_cons_cons, List.map_cons]
    refine congrArg₂ _ hseq ?h
    exact ih
  | _ :: _, [], _ :: _, h => by simp [batchAgreeOffPad] at h
  | _ :: _, _ :: _, [], h => by simp [batchAgreeOffPad] at h

/-- Claim C5: two predicted-probability tensors that agree at every position
whose target token id is not `PAD_TKID` (and may differ arbitrarily at
padding positions) yield the same `cross_entropy_loss` for the same target
token ids. -/
theorem cross_entropy_loss_pad_independent (lg : ℚ → ℚ)
    (batch_tkids : List (List Nat)) (pd1 pd2 : List (List (List ℚ)))
    (h : batchAgreeOffPad batch_tkids pd1 pd2 = true) :
    cross_entropy_loss lg batch_tkids pd1 = cross_entropy_loss lg batch_tkids pd2 :=
  cross_entropy_loss_agree_aux lg batch_tkids pd1 pd2 h

/-- Witness for C5: the two probability tensors differ (arbitrarily) at the
position whose target is `PAD_TKID`, and the losses coincide. -/
theorem cross_entropy_loss_pad_independent_witness :
    batchAgreeOffPad [[BOS_TKID, PAD_TKID]]
      [[[1, 0], [5, 5]]] [[[1, 0], [7, 9]]] = true ∧
    cross_entropy_loss id [[BOS_TKID, PAD_TKID]] [[[1, 0], [5, 5]]] =
      cross_entropy_loss id [[BOS_TKID, PAD_TKID]] [[[1, 0], [7, 9]]] :=
  ⟨by decide,
   cross_entropy_loss_pad_independent id [[BOS_TKID, PAD_TKID]]
     [[[1, 0], [5, 5]]] [[[1, 0], [7, 9]]] (by decide)⟩

/-- Claim C2: `pred` returns the batch of next-token-id probability
distributions with shape (batch_size, vocab_size) together with the current
hidden states (one per batch element, suitable to be passed back as
`batch_prev_states`), and passing `batch_prev_states = none` uses the
initial hidden state. -/
theorem pred_spec {σ : Type} (m : RecurrentModel σ) (batch_cur_tkids : List Nat)
    (batch_prev_states : Option (List σ))
    (hst : ∀ l, batch_prev_states = some l → l.length = batch_cur_tkids.length) :
    (pred m batch_cur_tkids batch_prev_states).1.length = batch_cur_tkids.length ∧
    (∀ d ∈ (pred m batch_cur_tkids batch_prev_states).1, d.length = m.vocab_size) ∧
    (pred m batch_cur_tkids batch_prev_states).2.length = batch_cur_tkids.length ∧
    pred m batch_cur_tkids none =
      pred m batch_cur_tkids
        (some (List.replicate batch_cur_tkids.length m.init_state)) := by
  refine ⟨?l1, ?l2, ?l3, rfl⟩
  case l1 =>
    cases batch_prev_states with
    | none => simp [pred]
    | some l => simp [pred, hst l rfl]
  case l2 =>
    intro d hd
    simp only [pred, List.map_map, List.mem_map] at hd
    obtain ⟨p, _, hp⟩ := hd
    rw [show d = (m.step p.2 p.1).1 from hp.symm]
    exact m.step_len p.2 p.1
  case l3 =>
    cases batch_prev_states with
    | none => simp [pred]
    | some l => simp [pred, hst l rfl]

/-- A concrete single-rational-state model used to instantiate the abstract
model theorems on executable inputs. -/
def toyModel : RecurrentModel ℚ :=
  ⟨2, 0, fun s t => ([s, (t : ℚ)], s + (t : ℚ)), fun _ _ => rfl⟩

/-- Witness for C2 at the concrete model and a two-element batch. -/
theorem pred_spec_witness :
    (pred toyModel [1, 2] none).1.length = 2 ∧
    (∀ d ∈ (pred toyModel [1, 2] none).1, d.length = toyModel.vocab_size) ∧
    (pred toyModel [1, 2] none).2.length = 2 ∧
    pred toyModel [1, 2] none =
      pred toyModel [1, 2] (some (List.replicate 2 toyModel.init_state)) :=
  pred_spec toyModel [1, 2] none (fun _ h => Option.noConfusion h)

/-- The per-sequence training-loss accumulator coincides with the masked
cross-entropy accumulator applied to the teacher-forced unrolled
distributions. -/
theorem seqForwardAcc_eq {σ : Type} (lg : ℚ → ℚ) (m : RecurrentModel σ) :
    ∀ (cs : List Nat) (s : σ) (ns : List Nat),
      seqForwardAcc lg m s cs ns = seqCESum lg (ns.zip (unroll m s cs))
  | [], s, ns => by simp [seqForwardAcc, unroll, List.zip, seqCESum]
  | c :: cs, s, [] => by simp [seqForwardAcc, List.zip, seqCESum]
  | c :: cs, s, n :: ns => by
    rcases hstep : m.step s c with ⟨d, s2⟩
    have ih : seqForwardAcc lg m s2 cs ns =
        seqCESum lg (List.zipWith Prod.mk ns (unroll m s2 cs)) :=
      seqForwardAcc_eq lg m cs s2 ns
    simp [seqForwardAcc, unroll, hstep, List.zip, seqCESum, ih]

/-- The batch of per-sequence losses computed by `forward` is exactly
`cross_entropy_loss` of the teacher-forced unrolled distributions. -/
theorem forward_losses_eq {σ : Type} (lg : ℚ → ℚ) (m : RecurrentModel σ) :
    ∀ (cur next : List (List Nat)),
      (cur.zip next).map (fun p =>
        match seqForwardAcc lg m m.init_state p.1 p.2 with
        | (su, cnt) => -(su / cnt)) =
      cross_entropy_loss lg next (cur.map (unroll m m.init_state))
  | [], next => by simp [cross_entropy_loss, List.zip]
  | c :: cs, [] => by simp [cross_entropy_loss, List.zip]
  | c :: cs, n :: ns => by
    have ih := forward_losses_eq lg m cs ns
    simp only [List.zip_cons_cons, List.map_cons, cross_entropy_loss] at ih ⊢
    refine congrArg₂ _ ?hd ih
    rw [seqForwardAcc_eq lg m c m.init_state n]
    rfl

/-- Claim C3: `forward` computes the mini-batch training loss under teacher
forcing: the returned tensor has shape (1) and its value is the batch mean
of the per-sequence cross-entropy losses of the distributions obtained by
unrolling the recurrence on the ground-truth current tokens (never on model
predictions), with the ground-truth next tokens as targets. -/
theorem forward_spec {σ : Type} (lg : ℚ → ℚ) (m : RecurrentModel σ)
    (batch_cur_tkids batch_next_tkids : List (List Nat)) :
    (forward lg m batch_cur_tkids batch_next_tkids).length = 1 ∧
    forward lg m batch_cur_tkids batch_next_tkids =
      [(cross_entropy_loss lg batch_next_tkids
          (batch_cur_tkids.map (unroll m m.init_state))).sum /
        ((cross_entropy_loss lg batch_next_tkids
          (batch_cur_tkids.map (unroll m m.init_state))).length : ℚ)] := by
  constructor
  · rfl
  · unfold forward
    rw [forward_losses_eq lg m batch_cur_tkids batch_next_tkids]

/-- Looking a character up in a vocabulary with pairwise-distinct characters
finds exactly its entry. -/
theorem find?_vocab_char (vocab : List (Char × Nat)) (c : Char) (i : Nat)
    (hmem : (c, i) ∈ vocab) (hnodup : (vocab.map Prod.fst).Nodup) :
    vocab.find? (fun p => p.1 == c) = some (c, i) := by
  induction vocab with
  | nil => cases hmem
  | cons hd tl ih =>
    obtain ⟨c0, i0⟩ := hd
    simp only [List.map_cons, List.nodup_cons] at hnodup
    obtain ⟨hnotin, hnd⟩ := hnodup
    by_cases h : c0 = c
    · subst h
      rcases List.mem_cons.mp hmem with heq | htl
      · rw [List.find?_cons_of_pos]
        · exact congrArg some heq.symm
        · simp
      · exact absurd (List.mem_map.mpr ⟨(c0, i), htl, rfl⟩) hnotin
    · rw [List.find?_cons_of_neg]
      · refine ih ?hm hnd
        rcases List.mem_cons.mp hmem with heq | htl
        · cases heq; exact absurd rfl h
        · exact htl
      · simp [h]

/-- Looking a token id up in a vocabulary with pairwise-distinct ids finds
exactly its entry. -/
theorem find?_vocab_id (vocab : List (Char × Nat)) (c : Char) (i : Nat)
    (hmem : (c, i) ∈ vocab) (hnodup : (vocab.map Prod.snd).Nodup) :
    vocab.find? (fun p => p.2 == i) = some (c, i) := by
  induction vocab with
  | nil => cases hmem
  | cons hd tl ih =>
    obtain ⟨c0, i0⟩ := hd
    simp only [List.map_cons, List.nodup_cons] at hnodup
    obtain ⟨hnotin, hnd⟩ := hnodup
    by_cases h : i0 = i
    · subst h
      rcases List.mem_cons.mp hmem with heq | htl
      · rw [List.find?_cons_of_pos]
        · exact congrArg some heq.symm
        · simp
      · exact absurd (List.mem_map.mpr ⟨(c, i0), htl, rfl⟩) hnotin
    · rw [List.find?_cons_of_neg]
      · refine ih ?hm hnd
        rcases List.mem_cons.mp hmem with heq | htl
        · cases heq; exact absurd rfl h
        · exact htl
      · simp [h]

/-- Counterexample to claim C4 as stated: over the vocabulary containing
only the character `a`, encoding the raw text `b` substitutes `UNK_TKID`, so
decoding does not restore the original text. -/
theorem enc_dec_not_roundtrip :
    dec [('a', 4)] (enc [('a', 4)] "b") ≠ "b" := by decide

/-- Claim C4 (amended): decoding the encoding of a raw text restores the
text whenever the vocabulary has pairwise-distinct characters and ids and
every character of the text is in the vocabulary (so the unknown-token
substitution never fires). -/
theorem enc_dec_roundtrip (vocab : List (Char × Nat)) (txt : String)
    (hchar : (vocab.map Prod.fst).Nodup) (hid : (vocab.map Prod.snd).Nodup)
    (hcov : ∀ c ∈ txt.data, c ∈ vocab.map Prod.fst) :
    dec vocab (enc vocab txt) = txt := by
  have key : ∀ c ∈ txt.data, id2seg vocab (tok2id vocab c) = [c] := by
    intro c hc
    obtain ⟨p, hp, hpc⟩ := List.mem_map.mp (hcov c hc)
    obtain ⟨c', i⟩ := p
    cases hpc
    rw [tok2id, find?_vocab_char vocab c' i hp hchar, id2seg,
      find?_vocab_id vocab c' i hp hid]
  unfold dec enc
  have hflat : ∀ (l : List Char), (∀ c ∈ l, id2seg vocab (tok2id vocab c) = [c]) →
      (l.map (tok2id vocab)).flatMap (id2seg vocab) = l := by
    intro l
    induction l with
    | nil => intro _; rfl
    | cons x xs ih =>
      intro hl
      simp only [List.map_cons, List.flatMap_cons]
      rw [hl x (List.mem_cons_self x xs),
        ih (fun c hc => hl c (List.mem_cons_of_mem x hc))]
      rfl
  rw [hflat txt.data key]

/-- Witness for the amended C4 on a concrete vocabulary and text. -/
theorem enc_dec_roundtrip_witness :
    dec [('a', 4), ('b', 5)] (enc [('a', 4), ('b', 5)] "abba") = "abba" :=
  enc_dec_roundtrip [('a', 4), ('b', 5)] "abba" (by decide) (by decide) (by decide)

/-- Claim C6: `MODEL_OPTS` maps each model's `model_name` to that model
class; in particular `RNN` is a key mapped to `RNNModel`, the keys are
pairwise distinct, and there is exactly one entry per distinct `model_name`
in `ALL_MODELS`. -/
theorem MODEL_OPTS_spec :
    (∀ m ∈ ALL_MODELS, dictLookup MODEL_OPTS (model_name m) = some m) ∧
    dictLookup MODEL_OPTS "RNN" = some ModelClass.RNNModel ∧
    (MODEL_OPTS.map Prod.fst).Nodup ∧
    MODEL_OPTS.length = (ALL_MODELS.map model_name).dedup.length := by decide


/-- One successful conversion step of `convertPairs`: the option name is
registered, the raw value converts under the declared type and passes the
choices restriction, and the rest converts. -/
theorem convertPairs_cons (specs : List ArgSpec) (k raw : String)
    (rest : List (String × String)) (sp : ArgSpec) (v : ArgVal)
    (tail : List (String × ArgVal))
    (h1 : lookupSpec specs k = some sp)
    (h2 : convert sp.ty raw = some v)
    (h3 : (match sp.choices with
           | some cs => if cs.contains raw then some () else none
           | none => some ()) = some ())
    (h4 : convertPairs specs rest = some tail) :
    convertPairs specs ((k, raw) :: rest) = some ((k, v) :: tail) := by
  unfold convertPairs
  simp only [h1, h2, h3, h4]

/-- Every option name produced by `pairArgs` occurs (with its `--` prefix)
in the original argv token list. -/
theorem pairArgs_keys :
    ∀ (argv : List String) (pairs : List (String × String)),
      pairArgs argv = some pairs → ∀ kv ∈ pairs, ("--" ++ kv.1) ∈ argv
  | [], pairs, h, kv, hkv => by
    simp only [pairArgs, Option.some.injEq] at h
    subst h
    cases hkv
  | [k], pairs, h, kv, hkv => by simp [pairArgs] at h
  | k :: v :: rest, pairs, h, kv, hkv => by
    unfold pairArgs at h
    split at h
    case h_1 c1 c2 kname heq =>
      split at h
      case isTrue hcc =>
        simp only [Bool.and_eq_true, beq_iff_eq] at hcc
        obtain ⟨hc1, hc2⟩ := hcc
        subst hc1
        subst hc2
        rcases hmap : pairArgs rest with _ | tail
        · rw [hmap] at h
          simp at h
        · rw [hmap] at h
          simp only [Option.map_some', Option.some.injEq] at h
          subst h
          rcases List.mem_cons.mp hkv with hk | hk
          · subst hk
            have hkstr : "--" ++ String.mk kname = k := by
              cases k with
              | mk d =>
                have hd : d = '-' :: '-' :: kname := heq
                subst hd
                rfl
            rw [hkstr]
            exact List.mem_cons_self _ _
          · exact List.mem_cons_of_mem _
              (List.mem_cons_of_mem _ (pairArgs_keys rest tail hmap kv hk))
      case isFalse => exact Option.noConfusion h
    case h_2 => exact Option.noConfusion h

/-- Parsing fails whenever a required argument of `BaseModel.train_parser`
does not occur in the argv token list. -/
theorem parse_args_missing_required (argv : List String) (r : String)
    (hr : r ∈ requiredNames) (hnot : ("--" ++ r) ∉ argv) :
    parse_args train_parser_args argv = none := by
  unfold parse_args
  rcases hpa : pairArgs argv with _ | pairs
  · rfl
  · rcases hcp : convertPairs train_parser_args pairs with _ | vals
    · simp [hcp]
    · have hrk : r ∉ pairs.map Prod.fst := by
        intro hmem
        obtain ⟨kv, hkv, hkveq⟩ := List.mem_map.mp hmem
        exact hnot (hkveq ▸ pairArgs_keys argv pairs hpa kv hkv)
      have hfalse : requiredPresent train_parser_args (pairs.map Prod.fst) = false := by
        obtain ⟨sp, hspf, hspn⟩ := List.mem_map.mp hr
        obtain ⟨hspmem, hspreq⟩ := List.mem_filter.mp hspf
        unfold requiredPresent
        rw [List.all_eq_false]
        refine ⟨sp, hspmem, ?hp⟩
        rw [hspreq]
        simp only [Bool.not_true, Bool.false_or]
        intro hcontains
        rw [hspn] at hcontains
        exact hrk (by simpa using hcontains)
      simp [hcp, hfalse]

theorem parse_args_success
    (sBatch sB1 sB2 sCkpt sDset sEps sExp sLog sLr sMaxNorm sMaxLen sEpoch sTknzr sVer sWd : String)
    (vBatch vCkpt vLog vMaxLen vEpoch : Int) (vB1 vB2 vEps vLr vMaxNorm vWd : ℚ)
    (h_batch_size : parseInt sBatch = some vBatch)
    (h_beta1 : parseFloat sB1 = some vB1)
    (h_beta2 : parseFloat sB2 = some vB2)
    (h_ckpt_step : parseInt sCkpt = some vCkpt)
    (h_dset_name : DSET_CHOICES.contains sDset = true)
    (h_eps : parseFloat sEps = some vEps)
    (h_log_step : parseInt sLog = some vLog)
    (h_lr : parseFloat sLr = some vLr)
    (h_max_norm : parseFloat sMaxNorm = some vMaxNorm)
    (h_max_seq_len : parseInt sMaxLen = some vMaxLen)
    (h_n_epoch : parseInt sEpoch = some vEpoch)
    (h_wd : parseFloat sWd = some vWd)
    :
    parse_args train_parser_args ["--batch_size", sBatch, "--beta1", sB1, "--beta2", sB2, "--ckpt_step", sCkpt, "--dset_name", sDset, "--eps", sEps, "--exp_name", sExp, "--log_step", sLog, "--lr", sLr, "--max_norm", sMaxNorm, "--max_seq_len", sMaxLen, "--n_epoch", sEpoch, "--tknzr_exp_name", sTknzr, "--ver", sVer, "--wd", sWd] =
      some [("batch_size", ArgVal.vInt vBatch), ("beta1", ArgVal.vFloat vB1), ("beta2", ArgVal.vFloat vB2), ("ckpt_step", ArgVal.vInt vCkpt), ("dset_name", ArgVal.vStr sDset), ("eps", ArgVal.vFloat vEps), ("exp_name", ArgVal.vStr sExp), ("log_step", ArgVal.vInt vLog), ("lr", ArgVal.vFloat vLr), ("max_norm", ArgVal.vFloat vMaxNorm), ("max_seq_len", ArgVal.vInt vMaxLen), ("n_epoch", ArgVal.vInt vEpoch), ("tknzr_exp_name", ArgVal.vStr sTknzr), ("ver", ArgVal.vStr sVer), ("wd", ArgVal.vFloat vWd), ("seed", ArgVal.vInt 42)] := by
  have c15 : convertPairs train_parser_args [] = some [] := rfl
  have c14 : convertPairs train_parser_args [("wd", sWd)] =
      some [("wd", ArgVal.vFloat vWd)] :=
    convertPairs_cons _ _ _ _ ⟨"wd", true, .float, none, none⟩ _ _ rfl (by simp only [convert, h_wd, Option.map_some']) rfl c15
  have c13 : convertPairs train_parser_args [("ver", sVer), ("wd", sWd)] =
      some [("ver", ArgVal.vStr sVer), ("wd", ArgVal.vFloat vWd)] :=
    convertPairs_cons _ _ _ _ ⟨"ver", true, .str, none, none⟩ _ _ rfl rfl rfl c14
  have c12 : convertPairs train_parser_args [("tknzr_exp_name", sTknzr), ("ver", sVer), ("wd", sWd)] =
      some [("tknzr_exp_name", ArgVal.vStr sTknzr), ("ver", ArgVal.vStr sVer), ("wd", ArgVal.vFloat vWd)] :=
    convertPairs_cons _ _ _ _ ⟨"tknzr_exp_name", true, .str, none, none⟩ _ _ rfl rfl rfl c13
  have c11 : convertPairs train_parser_args [("n_epoch", sEpoch), ("tknzr_exp_name", sTknzr), ("ver", sVer), ("wd", sWd)] =
      some [("n_epoch", ArgVal.vInt vEpoch), ("tknzr_exp_name", ArgVal.vStr sTknzr), ("ver", ArgVal.vStr sVer), ("wd", ArgVal.vFloat vWd)] :=
    convertPairs_cons _ _ _ _ ⟨"n_epoch", true, .int, none, none⟩ _ _ rfl (by simp only [convert, h_n_epoch, Option.map_some']) rfl c12
  have c10 : convertPairs train_parser_args [("max_seq_len", sMaxLen), ("n_epoch", sEpoch), ("tknzr_exp_name", sTknzr), ("ver", sVer), ("wd", sWd)] =
      some [("max_seq_len", ArgVal.vInt vMaxLen), ("n_epoch", ArgVal.vInt vEpoch), ("tknzr_exp_name", ArgVal.vStr sTknzr), ("ver", ArgVal.vStr sVer), ("wd", ArgVal.vFloat vWd)] :=
    convertPairs_cons _ _ _ _ ⟨"max_seq_len", true, .int, none, none⟩ _ _ rfl (by simp only [convert, h_max_seq_len, Option.map_some']) rfl c11
  have c9 : convertPairs train_parser_args [("max_norm", sMaxNorm), ("max_seq_len", sMaxLen), ("n_epoch", sEpoch), ("tknzr_exp_name", sTknzr), ("ver", sVer), ("wd", sWd)] =
      some [("max_norm", ArgVal.vFloat vMaxNorm), ("max_seq_len", ArgVal.vInt vMaxLen), ("n_epoch", ArgVal.vInt vEpoch), ("tknzr_exp_name", ArgVal.vStr sTknzr), ("ver", ArgVal.vStr sVer), ("wd", ArgVal.vFloat vWd)] :=
    convertPairs_cons _ _ _ _ ⟨"max_norm", true, .float, none, none⟩ _ _ rfl (by simp only [convert, h_max_norm, Option.map_some']) rfl c10
  have c8 : convertPairs train_parser_args [("lr", sLr), ("max_norm", sMaxNorm), ("max_seq_len", sMaxLen), ("n_epoch", sEpoch), ("tknzr_exp_name", sTknzr), ("ver", sVer), ("wd", sWd)] =
      some [("lr", ArgVal.vFloat vLr), ("max_norm", ArgVal.vFloat vMaxNorm), ("max_seq_len", ArgVal.vInt vMaxLen), ("n_epoch", ArgVal.vInt vEpoch), ("tknzr_exp_name", ArgVal.vStr sTknzr), ("ver", ArgVal.vStr sVer), ("wd", ArgVal.vFloat vWd)] :=
    convertPairs_cons _ _ _ _ ⟨"lr", true, .float, none, none⟩ _ _ rfl (by simp only [convert, h_lr, Option.map_some']) rfl c9
  have c7 : convertPairs train_parser_args [("log_step", sLog), ("lr", sLr), ("max_norm", sMaxNorm), ("max_seq_len", sMaxLen), ("n_epoch", sEpoch), ("tknzr_exp_name", sTknzr), ("ver", sVer), ("wd", sWd)] =
      some [("log_step", ArgVal.vInt vLog), ("lr", ArgVal.vFloat vLr), ("max_norm", ArgVal.vFloat vMaxNorm), ("max_seq_len", ArgVal.vInt vMaxLen), ("n_epoch", ArgVal.vInt vEpoch), ("tknzr_exp_name", ArgVal.vStr sTknzr), ("ver", ArgVal.vStr sVer), ("wd", ArgVal.vFloat vWd)] :=
    convertPairs_cons _ _ _ _ ⟨"log_step", true, .int, none, none⟩ _ _ rfl (by simp only [convert, h_log_step, Option.map_some']) rfl c8
  have c6 : convertPairs train_parser_args [("exp_name", sExp), ("log_step", sLog), ("lr", sLr), ("max_norm", sMaxNorm), ("max_seq_len", sMaxLen), ("n_epoch", sEpoch), ("tknzr_exp_name", sTknzr), ("ver", sVer), ("wd", sWd)] =
      some [("exp_name", ArgVal.vStr sExp), ("log_step", ArgVal.vInt vLog), ("lr", ArgVal.vFloat vLr), ("max_norm", ArgVal.vFloat vMaxNorm), ("max_seq_len", ArgVal.vInt vMaxLen), ("n_epoch", ArgVal.vInt vEpoch), ("tknzr_exp_name", ArgVal.vStr sTknzr), ("ver", ArgVal.vStr sVer), ("wd", ArgVal.vFloat vWd)] :=
    convertPairs_cons _ _ _ _ ⟨"exp_name", true, .str, none, none⟩ _ _ rfl rfl rfl c7
  have c5 : convertPairs train_parser_args [("eps", sEps), ("exp_name", sExp), ("log_step", sLog), ("lr", sLr), ("max_norm", sMaxNorm), ("max_seq_len", sMaxLen), ("n_epoch", sEpoch), ("tknzr_exp_name", sTknzr), ("ver", sVer), ("wd", sWd)] =
      some [("eps", ArgVal.vFloat vEps), ("exp_name", ArgVal.vStr sExp), ("log_step", ArgVal.vInt vLog), ("lr", ArgVal.vFloat vLr), ("max_norm", ArgVal.vFloat vMaxNorm), ("max_seq_len", ArgVal.vInt vMaxLen), ("n_epoch", ArgVal.vInt vEpoch), ("tknzr_exp_name", ArgVal.vStr sTknzr), ("ver", ArgVal.vStr sVer), ("wd", ArgVal.vFloat vWd)] :=
    convertPairs_cons _ _ _ _ ⟨"eps", true, .float, none, none⟩ _ _ rfl (by simp only [convert, h_eps, Option.map_some']) rfl c6
  have c4 : convertPairs train_parser_args [("dset_name", sDset), ("eps", sEps), ("exp_name", sExp), ("log_step", sLog), ("lr", sLr), ("max_norm", sMaxNorm), ("max_seq_len", sMaxLen), ("n_epoch", sEpoch), ("tknzr_exp_name", sTknzr), ("ver", sVer), ("wd", sWd)] =
      some [("dset_name", ArgVal.vStr sDset), ("eps", ArgVal.vFloat vEps), ("exp_name", ArgVal.vStr sExp), ("log_step", ArgVal.vInt vLog), ("lr", ArgVal.vFloat vLr), ("max_norm", ArgVal.vFloat vMaxNorm), ("max_seq_len", ArgVal.vInt vMaxLen), ("n_epoch", ArgVal.vInt vEpoch), ("tknzr_exp_name", ArgVal.vStr sTknzr), ("ver", ArgVal.vStr sVer), ("wd", ArgVal.vFloat vWd)] :=
    convertPairs_cons _ _ _ _ ⟨"dset_name", true, .str, some DSET_CHOICES, none⟩ _ _ rfl rfl (by show (if DSET_CHOICES.contains sDset then some () else none) = some (); rw [h_dset_name]; rfl) c5
  have c3 : convertPairs train_parser_args [("ckpt_step", sCkpt), ("dset_name", sDset), ("eps", sEps), ("exp_name", sExp), ("log_step", sLog), ("lr", sLr), ("max_norm", sMaxNorm), ("max_seq_len", sMaxLen), ("n_epoch", sEpoch), ("tknzr_exp_name", sTknzr), ("ver", sVer), ("wd", sWd)] =
      some [("ckpt_step", ArgVal.vInt vCkpt), ("dset_name", ArgVal.vStr sDset), ("eps", ArgVal.vFloat vEps), ("exp_name", ArgVal.vStr sExp), ("log_step", ArgVal.vInt vLog), ("lr", ArgVal.vFloat vLr), ("max_norm", ArgVal.vFloat vMaxNorm), ("max_seq_len", ArgVal.vInt vMaxLen), ("n_epoch", ArgVal.vInt vEpoch), ("tknzr_exp_name", ArgVal.vStr sTknzr), ("ver", ArgVal.vStr sVer), ("wd", ArgVal.vFloat vWd)] :=
    convertPairs_cons _ _ _ _ ⟨"ckpt_step", true, .int, none, none⟩ _ _ rfl (by simp only [convert, h_ckpt_step, Option.map_some']) rfl c4
  have c2 : convertPairs train_parser_args [("beta2", sB2), ("ckpt_step", sCkpt), ("dset_name", sDset), ("eps", sEps), ("exp_name", sExp), ("log_step", sLog), ("lr", sLr), ("max_norm", sMaxNorm), ("max_seq_len", sMaxLen), ("n_epoch", sEpoch), ("tknzr_exp_name", sTknzr), ("ver", sVer), ("wd", sWd)] =
      some [("beta2", ArgVal.vFloat vB2), ("ckpt_step", ArgVal.vInt vCkpt), ("dset_name", ArgVal.vStr sDset), ("eps", ArgVal.vFloat vEps), ("exp_name", ArgVal.vStr sExp), ("log_step", ArgVal.vInt vLog), ("lr", ArgVal.vFloat vLr), ("max_norm", ArgVal.vFloat vMaxNorm), ("max_seq_len", ArgVal.vInt vMaxLen), ("n_epoch", ArgVal.vInt vEpoch), ("tknzr_exp_name", ArgVal.vStr sTknzr), ("ver", ArgVal.vStr sVer), ("wd", ArgVal.vFloat vWd)] :=
    convertPairs_cons _ _ _ _ ⟨"beta2", true, .float, none, none⟩ _ _ rfl (by simp only [convert, h_beta2, Option.map_some']) rfl c3
  have c1 : convertPairs train_parser_args [("beta1", sB1), ("beta2", sB2), ("ckpt_step", sCkpt), ("dset_name", sDset), ("eps", sEps), ("exp_name", sExp), ("log_step", sLog), ("lr", sLr), ("max_norm", sMaxNorm), ("max_seq_len", sMaxLen), ("n_epoch", sEpoch), ("tknzr_exp_name", sTknzr), ("ver", sVer), ("wd", sWd)] =
      some [("beta1", ArgVal.vFloat vB1), ("beta2", ArgVal.vFloat vB2), ("ckpt_step", ArgVal.vInt vCkpt), ("dset_name", ArgVal.vStr sDset), ("eps", ArgVal.vFloat vEps), ("exp_name", ArgVal.vStr sExp), ("log_step", ArgVal.vInt vLog), ("lr", ArgVal.vFloat vLr), ("max_norm", ArgVal.vFloat vMaxNorm), ("max_seq_len", ArgVal.vInt vMaxLen), ("n_epoch", ArgVal.vInt vEpoch), ("tknzr_exp_name", ArgVal.vStr sTknzr), ("ver", ArgVal.vStr sVer), ("wd", ArgVal.vFloat vWd)] :=
    convertPairs_cons _ _ _ _ ⟨"beta1", true, .float, none, none⟩ _ _ rfl (by simp only [convert, h_beta1, Option.map_some']) rfl c2
  have c0 : convertPairs train_parser_args [("batch_size", sBatch), ("beta1", sB1), ("beta2", sB2), ("ckpt_step", sCkpt), ("dset_name", sDset), ("eps", sEps), ("exp_name", sExp), ("log_step", sLog), ("lr", sLr), ("max_norm", sMaxNorm), ("max_seq_len", sMaxLen), ("n_epoch", sEpoch), ("tknzr_exp_name", sTknzr), ("ver", sVer), ("wd", sWd)] =
      some [("batch_size", ArgVal.vInt vBatch), ("beta1", ArgVal.vFloat vB1), ("beta2", ArgVal.vFloat vB2), ("ckpt_step", ArgVal.vInt vCkpt), ("dset_name", ArgVal.vStr sDset), ("eps", ArgVal.vFloat vEps), ("exp_name", ArgVal.vStr sExp), ("log_step", ArgVal.vInt vLog), ("lr", ArgVal.vFloat vLr), ("max_norm", ArgVal.vFloat vMaxNorm), ("max_seq_len", ArgVal.vInt vMaxLen), ("n_epoch", ArgVal.vInt vEpoch), ("tknzr_exp_name", ArgVal.vStr sTknzr), ("ver", ArgVal.vStr sVer), ("wd", ArgVal.vFloat vWd)] :=
    convertPairs_cons _ _ _ _ ⟨"batch_size", true, .int, none, none⟩ _ _ rfl (by simp only [convert, h_batch_size, Option.map_some']) rfl c1
  have hpa : pairArgs ["--batch_size", sBatch, "--beta1", sB1, "--beta2", sB2, "--ckpt_step", sCkpt, "--dset_name", sDset, "--eps", sEps, "--exp_name", sExp, "--log_step", sLog, "--lr", sLr, "--max_norm", sMaxNorm, "--max_seq_len", sMaxLen, "--n_epoch", sEpoch, "--tknzr_exp_name", sTknzr, "--ver", sVer, "--wd", sWd] = some [("batch_size", sBatch), ("beta1", sB1), ("beta2", sB2), ("ckpt_step", sCkpt), ("dset_name", sDset), ("eps", sEps), ("exp_name", sExp), ("log_step", sLog), ("lr", sLr), ("max_norm", sMaxNorm), ("max_seq_len", sMaxLen), ("n_epoch", sEpoch), ("tknzr_exp_name", sTknzr), ("ver", sVer), ("wd", sWd)] := by
    simp only [pairArgs]
    norm_num
  unfold parse_args
  simp only [hpa, c0, List.map_cons, List.map_nil]
  simp +decide [requiredPresent, applyDefaults, train_parser_args, DSET_CHOICES]


/-- Claim C7: after `BaseModel.train_parser` registers its arguments,
parsing an argv that supplies all fifteen required arguments (with values
convertible under their declared types, the dataset name among the choices)
but omits `--seed` succeeds and yields a namespace in which each supplied
argument has the supplied value converted to its declared type and `seed`
equals 42; and parsing fails whenever any required argument is missing from
the argv. -/
theorem train_parser_spec :
    (∀ (sBatch sB1 sB2 sCkpt sDset sEps sExp sLog sLr sMaxNorm sMaxLen sEpoch
         sTknzr sVer sWd : String)
       (vBatch vCkpt vLog vMaxLen vEpoch : Int) (vB1 vB2 vEps vLr vMaxNorm vWd : ℚ),
       parseInt sBatch = some vBatch →
       parseFloat sB1 = some vB1 →
       parseFloat sB2 = some vB2 →
       parseInt sCkpt = some vCkpt →
       DSET_CHOICES.contains sDset = true →
       parseFloat sEps = some vEps →
       parseInt sLog = some vLog →
       parseFloat sLr = some vLr →
       parseFloat sMaxNorm = some vMaxNorm →
       parseInt sMaxLen = some vMaxLen →
       parseInt sEpoch = some vEpoch →
       parseFloat sWd = some vWd →
       parse_args train_parser_args
         ["--batch_size", sBatch, "--beta1", sB1, "--beta2", sB2,
          "--ckpt_step", sCkpt, "--dset_name", sDset, "--eps", sEps,
          "--exp_name", sExp, "--log_step", sLog, "--lr", sLr,
          "--max_norm", sMaxNorm, "--max_seq_len", sMaxLen,
          "--n_epoch", sEpoch, "--tknzr_exp_name", sTknzr, "--ver", sVer,
          "--wd", sWd] =
         some [("batch_size", ArgVal.vInt vBatch), ("beta1", ArgVal.vFloat vB1),
               ("beta2", ArgVal.vFloat vB2), ("ckpt_step", ArgVal.vInt vCkpt),
               ("dset_name", ArgVal.vStr sDset), ("eps", ArgVal.vFloat vEps),
               ("exp_name", ArgVal.vStr sExp), ("log_step", ArgVal.vInt vLog),
               ("lr", ArgVal.vFloat vLr), ("max_norm", ArgVal.vFloat vMaxNorm),
               ("max_seq_len", ArgVal.vInt vMaxLen), ("n_epoch", ArgVal.vInt vEpoch),
               ("tknzr_exp_name", ArgVal.vStr sTknzr), ("ver", ArgVal.vStr sVer),
               ("wd", ArgVal.vFloat vWd), ("seed", ArgVal.vInt 42)]) ∧
    (∀ (argv : List String) (r : String), r ∈ requiredNames →
       ("--" ++ r) ∉ argv → parse_args train_parser_args argv = none) :=
  ⟨parse_args_success, parse_args_missing_required⟩

/-- Witness for C7: the doctest argument list of `BaseModel.train_parser`
parses to the doctest's expected values with `seed = 42`, and an argv
missing the required `--beta1` is rejected. -/
theorem train_parser_spec_witness :
    parse_args train_parser_args
      ["--batch_size", "32", "--beta1", "0.9", "--beta2", "0.99",
       "--ckpt_step", "1000", "--dset_name", "wiki-text-2", "--eps", "1e-8",
       "--exp_name", "my_exp", "--log_step", "200", "--lr", "1e-4",
       "--max_norm", "1", "--max_seq_len", "-1", "--n_epoch", "10",
       "--tknzr_exp_name", "my_tknzr_exp", "--ver", "train", "--wd", "1e-2"] =
      some [("batch_size", ArgVal.vInt 32), ("beta1", ArgVal.vFloat (9/10)),
            ("beta2", ArgVal.vFloat (99/100)), ("ckpt_step", ArgVal.vInt 1000),
            ("dset_name", ArgVal.vStr "wiki-text-2"),
            ("eps", ArgVal.vFloat (1/100000000)),
            ("exp_name", ArgVal.vStr "my_exp"), ("log_step", ArgVal.vInt 200),
            ("lr", ArgVal.vFloat (1/10000)), ("max_norm", ArgVal.vFloat 1),
            ("max_seq_len", ArgVal.vInt (-1)), ("n_epoch", ArgVal.vInt 10),
            ("tknzr_exp_name", ArgVal.vStr "my_tknzr_exp"),
            ("ver", ArgVal.vStr "train"),
            ("wd", ArgVal.vFloat (1/100)), ("seed", ArgVal.vInt 42)] ∧
    parse_args train_parser_args ["--batch_size", "32"] = none := by
  constructor
  · exact train_parser_spec.1 "32" "0.9" "0.99" "1000" "wiki-text-2" "1e-8"
      "my_exp" "200" "1e-4" "1" "-1" "10" "my_tknzr_exp" "train" "1e-2"
      32 1000 200 (-1) 10 (9/10) (99/100) (1/100000000) (1/10000) 1 (1/100)
      rfl
      (by simp +decide [parseFloat, splitSign, splitOnChar, digitsValCore, parseIntChars] <;> norm_num)
      (by simp +decide [parseFloat, splitSign, splitOnChar, digitsValCore, parseIntChars] <;> norm_num)
      rfl
      (by decide)
      (by simp +decide [parseFloat, splitSign, splitOnChar, digitsValCore, parseIntChars] <;> norm_num)
      rfl
      (by simp +decide [parseFloat, splitSign, splitOnChar, digitsValCore, parseIntChars] <;> norm_num)
      (by simp +decide [parseFloat, splitSign, splitOnChar, digitsValCore, parseIntChars] <;> norm_num)
      rfl
      rfl
      (by simp +decide [parseFloat, splitSign, splitOnChar, digitsValCore, parseIntChars] <;> norm_num)
  · exact train_parser_spec.2 ["--batch_size", "32"] "beta1" (by decide) (by decide)

end LMP
